import Mathlib

/-!
Verification development for the gh-backup tool (src/main.rs).

The development shallowly embeds the orchestration engine of the program:
the paginated repository lister (fetch_repos, main.rs lines 124-170), the
identity resolver (fetch_user, lines 93-123), and the per-repository
clone-or-update backup unit together with the top-level control flow of
main (lines 172-259).

HTTP exchanges are modelled by the data the program extracts from them: a
status code together with the result of decoding the body; a transport
failure is an absent response.  Git operations are modelled by an
environment of fallible results, and the observable behaviour of a run is
an event trace plus the process exit code (0 for ExitCode::SUCCESS, 1 for
ExitCode::FAILURE).
-/

/-- Repository record decoded from the GitHub API (struct GhRepo, main.rs lines 30-35). -/
structure GhRepo where
  name : String
  full_name : String
  clone_url : String
deriving DecidableEq

/-- Authenticated user record (struct GhUser, main.rs lines 37-40). -/
structure GhUser where
  login : String
deriving DecidableEq

/-- Error taxonomy of the repository lister (enum FetchReposError, main.rs lines 42-47). -/
inductive FetchReposError where
  | OrganisationNotFound
  | Forbidden
  | ServerError
  | UnknownError
deriving DecidableEq

/-- Error taxonomy of the identity resolver (enum UserError, main.rs lines 67-71). -/
inductive UserError where
  | Forbidden
  | ServerError
  | UnknownError
deriving DecidableEq

/-- Outcome of one HTTP exchange for a repository-listing page: the status
code plus the result of JSON-decoding the body into a list of repositories
(none means the decode failed).  A transport failure is modelled as the
whole response being absent at the call site. -/
structure PageResponse where
  status : Nat
  body : Option (List GhRepo)
deriving DecidableEq

/-- Outcome of the single HTTP exchange performed by fetch_user: the status
code plus the decoded login field (none means the decode failed). -/
structure UserResponse where
  status : Nat
  login : Option String
deriving DecidableEq

/-- Embedding of reqwest StatusCode::is_success: the status is in the 2xx range. -/
def is_success (s : Nat) : Bool := decide (200 ≤ s) && decide (s ≤ 299)

/-- Embedding of reqwest StatusCode::is_server_error: the status is in the 5xx range. -/
def is_server_error (s : Nat) : Bool := decide (500 ≤ s) && decide (s ≤ 599)

/-- Page ceiling constant (main.rs line 91).  The loop in fetch_repos
iterates page over the half-open range 1..MAX_PAGE, so at most
MAX_PAGE - 1 = 999 pages are ever requested. -/
def MAX_PAGE : Nat := 1000

/-- Embedding of fetch_user (main.rs lines 93-123) as a function of the
single HTTP exchange the body performs; none is a transport failure.  The
constant URL always parses, so the Url::parse error branch is dead.
Classification order follows the source: 403, then 5xx, then any other
non-2xx, then the body decode. -/
def fetch_user (resp : Option UserResponse) : Except UserError GhUser :=
  match resp with
  | none => .error .UnknownError
  | some r =>
    if r.status == 403 then .error .Forbidden
    else if is_server_error r.status then .error .ServerError
    else if !is_success r.status then .error .UnknownError
    else
      match r.login with
      | none => .error .UnknownError
      | some l => .ok ⟨l⟩

/-- Result of processing one page response inside the fetch_repos loop:
either a classified error (the loop aborts) or the decoded items. -/
inductive PageResult where
  | fail (e : FetchReposError)
  | items (l : List GhRepo)
deriving DecidableEq

/-- Embedding of the per-page status classification and body decode of the
fetch_repos loop body (main.rs lines 134-160).  Classification order
follows the source: 404, then 403, then 5xx, then any other non-2xx, then
the body decode. -/
def process_page (resp : Option PageResponse) : PageResult :=
  match resp with
  | none => .fail .UnknownError
  | some r =>
    if r.status == 404 then .fail .OrganisationNotFound
    else if r.status == 403 then .fail .Forbidden
    else if is_server_error r.status then .fail .ServerError
    else if !is_success r.status then .fail .UnknownError
    else
      match r.body with
      | none => .fail .UnknownError
      | some l => .items l

/-- Embedding of the pagination loop of fetch_repos (main.rs lines
127-167).  The api argument gives the outcome of the HTTP exchange for
each page number.  The result records the pages requested, in request
order, together with the final result: abort on a page error, stop on an
empty page, otherwise append the items and continue with the next page.
The fuel argument counts the remaining loop iterations; the Rust for-loop
over 1..MAX_PAGE grants 999 iterations starting at page 1. -/
def fetch_repos_loop (api : Nat → Option PageResponse) :
    Nat → Nat → List GhRepo → List Nat × Except FetchReposError (List GhRepo)
  | 0, _, acc => ([], .ok acc)
  | fuel + 1, page, acc =>
    match process_page (api page) with
    | .fail e => ([page], .error e)
    | .items l =>
      if l.isEmpty then ([page], .ok acc)
      else
        let r := fetch_repos_loop api fuel (page + 1) (acc ++ l)
        (page :: r.1, r.2)

/-- Embedding of fetch_repos (main.rs lines 124-170): run the pagination
loop from page 1 with an empty accumulator and MAX_PAGE - 1 = 999
available iterations. -/
def fetch_repos (api : Nat → Option PageResponse) :
    List Nat × Except FetchReposError (List GhRepo) :=
  fetch_repos_loop api (MAX_PAGE - 1) 1 []

/-- Concatenation of the items of pages s, s+1, ..., s+n-1, in page order. -/
def pageConcat (pages : Nat → List GhRepo) : Nat → Nat → List GhRepo
  | _, 0 => []
  | s, n + 1 => pages s ++ pageConcat pages (s + 1) n

theorem isEmpty_false_of_ne_nil {α : Type} {l : List α} (h : l ≠ []) :
    l.isEmpty = false := by
  cases l with
  | nil => exact absurd rfl h
  | cons a t => rfl

/-- Stepping lemma: the loop walks through k consecutive full (successful,
non-empty) pages, recording their numbers and accumulating their items,
and then continues with the remaining fuel. -/
theorem fetch_repos_loop_full (api : Nat → Option PageResponse)
    (pages : Nat → List GhRepo) :
    ∀ (k page fuel : Nat) (acc : List GhRepo),
      k ≤ fuel →
      (∀ i, page ≤ i → i < page + k →
        process_page (api i) = .items (pages i) ∧ pages i ≠ []) →
      fetch_repos_loop api fuel page acc =
        (List.range' page k ++
            (fetch_repos_loop api (fuel - k) (page + k)
              (acc ++ pageConcat pages page k)).1,
          (fetch_repos_loop api (fuel - k) (page + k)
            (acc ++ pageConcat pages page k)).2) := by
  intro k
  induction k with
  | zero =>
    intro page fuel acc _ _
    simp [pageConcat]
  | succ k ih =>
    intro page fuel acc hk hfull
    match fuel, hk with
    | fuel + 1, hk =>
      have hpage := hfull page (Nat.le_refl page) (by omega)
      have hne := isEmpty_false_of_ne_nil hpage.2
      have hrec := ih (page + 1) fuel (acc ++ pages page) (by omega)
        (fun i h1 h2 => hfull i (by omega) (by omega))
      have harith1 : fuel + 1 - (k + 1) = fuel - k := by omega
      have harith2 : page + (k + 1) = page + 1 + k := by omega
      have hconcat : pageConcat pages page (k + 1) =
          pages page ++ pageConcat pages (page + 1) k := rfl
      rw [fetch_repos_loop, hpage.1]
      simp only [hne, Bool.false_eq_true, if_false, hrec, harith1, harith2,
        hconcat, List.range'_succ, List.append_assoc, List.cons_append]

/-- Running the loop with full pages for all of its fuel consumes the fuel
and returns everything accumulated so far. -/
theorem fetch_repos_loop_all_full (api : Nat → Option PageResponse)
    (pages : Nat → List GhRepo) (fuel page : Nat) (acc : List GhRepo)
    (hfull : ∀ i, page ≤ i → i < page + fuel →
      process_page (api i) = .items (pages i) ∧ pages i ≠ []) :
    fetch_repos_loop api fuel page acc =
      (List.range' page fuel, .ok (acc ++ pageConcat pages page fuel)) := by
  have h := fetch_repos_loop_full api pages fuel page fuel acc (Nat.le_refl _) hfull
  simpa [fetch_repos_loop] using h

/-- The loop never requests more pages than it has fuel. -/
theorem fetch_repos_loop_length (api : Nat → Option PageResponse) :
    ∀ (fuel page : Nat) (acc : List GhRepo),
      (fetch_repos_loop api fuel page acc).1.length ≤ fuel := by
  intro fuel
  induction fuel with
  | zero => intro page acc; simp [fetch_repos_loop]
  | succ fuel ih =>
    intro page acc
    rw [fetch_repos_loop]
    cases h : process_page (api page) with
    | fail e => simp
    | items l =>
      cases hl : l.isEmpty with
      | true => simp [hl]
      | false =>
        simp only [hl, Bool.false_eq_true, if_false, List.length_cons]
        exact Nat.succ_le_succ (ih (page + 1) (acc ++ l))

/-- Fixed sample repository used for concrete instantiations. -/
def repoA : GhRepo := ⟨"a", "acme/a", "https://github.com/acme/a.git"⟩

/-- API behaviour with 999 full pages followed by an empty page 1000:
every page up to 999 decodes to a one-element list, later pages decode
to the empty list, always with status 200. -/
def api999 : Nat → Option PageResponse :=
  fun p => some ⟨200, some (if p ≤ 999 then [repoA] else [])⟩

/-- C4 amended.  For an organization whose repositories span P full pages
followed by one empty page, provided P is at most 998 so that the empty
page lies within the 999-page ceiling, fetch_repos requests exactly the
pages 1, 2, ..., P+1 in increasing order, stops at the first empty page,
and returns the concatenation of the pages' items in page-then-within-page
order, without de-duplication. -/
theorem fetch_repos_pagination (api : Nat → Option PageResponse)
    (pages : Nat → List GhRepo) (P : Nat) (hP : P ≤ 998)
    (hfull : ∀ i, 1 ≤ i → i ≤ P →
      process_page (api i) = .items (pages i) ∧ pages i ≠ [])
    (hempty : process_page (api (P + 1)) = .items []) :
    fetch_repos api = (List.range' 1 (P + 1), .ok (pageConcat pages 1 P)) := by
  have hstep := fetch_repos_loop_full api pages P 1 999 [] (by omega)
    (fun i h1 h2 => hfull i h1 (by omega))
  have hfuel : 999 - P = (998 - P) + 1 := by omega
  have hpage : (1 : Nat) + P = P + 1 := by omega
  have hshow : fetch_repos api = fetch_repos_loop api 999 1 [] := rfl
  rw [hshow, hstep, hfuel, hpage, fetch_repos_loop, hempty]
  have hsnoc : List.range' 1 P ++ [P + 1] = List.range' 1 (P + 1) := by
    have h0 := List.range'_1_concat 1 P
    rw [Nat.add_comm 1 P] at h0
    exact h0.symm
  simp only [List.isEmpty_nil, if_true, List.nil_append, hsnoc]

/-- C4 counterexample.  With 999 full pages followed by an empty page
1000 (so P = 999), the premise of the claim holds, but fetch_repos stops
at the page ceiling after 999 requests and never requests the empty page,
so the number of page requests is not P + 1 = 1000. -/
theorem fetch_repos_pagination_cex :
    (∀ i, 1 ≤ i → i ≤ 999 → process_page (api999 i) = .items [repoA]) ∧
    process_page (api999 1000) = .items [] ∧
    (fetch_repos api999).1.length ≠ 999 + 1 := by
  refine ⟨?_, rfl, ?_⟩
  · intro i h1 h2
    show process_page (some ⟨200, some (if i ≤ 999 then [repoA] else [])⟩) = _
    rw [if_pos h2]; decide
  · have h := fetch_repos_loop_all_full api999 (fun _ => [repoA]) 999 1 []
      (fun i h1 h2 => by
        refine ⟨?_, by simp⟩
        show process_page (some ⟨200, some (if i ≤ 999 then [repoA] else [])⟩) =
          PageResult.items [repoA]
        rw [if_pos (by omega : i ≤ 999)]; decide)
    have hshow : fetch_repos api999 = fetch_repos_loop api999 999 1 [] := rfl
    rw [hshow, h]
    simp

/-- C4 witness: the spec scenario, organization acme with page 1
containing a and b, page 2 containing c, page 3 empty, yields requests
1, 2, 3 and exactly the records a, b, c in order. -/
def repoB : GhRepo := ⟨"b", "acme/b", "https://github.com/acme/b.git"⟩

/-- Third sample repository for the pagination scenario. -/
def repoC : GhRepo := ⟨"c", "acme/c", "https://github.com/acme/c.git"⟩

/-- API behaviour of the spec scenario: page 1 holds a and b, page 2
holds c, every later page is empty, all with status 200. -/
def apiAcme : Nat → Option PageResponse :=
  fun p => some ⟨200, some (if p = 1 then [repoA, repoB] else if p = 2 then [repoC] else [])⟩

/-- Page contents of the spec scenario as a pure function. -/
def pagesAcme : Nat → List GhRepo :=
  fun p => if p = 1 then [repoA, repoB] else if p = 2 then [repoC] else []

theorem fetch_repos_pagination_witness :
    fetch_repos apiAcme = ([1, 2, 3], .ok [repoA, repoB, repoC]) := by
  have h := fetch_repos_pagination apiAcme pagesAcme 2 (by omega)
    (fun i h1 h2 => by interval_cases i <;> exact ⟨rfl, by decide⟩)
    rfl
  simpa [pageConcat, pagesAcme, List.range'] using h

/-- C5.  The lister never issues more than 999 page requests, whatever
the API does; and when every page within the ceiling is full, it requests
exactly pages 1 through 999 and returns the repositories accumulated so
far. -/
theorem fetch_repos_page_ceiling :
    (∀ api, (fetch_repos api).1.length ≤ 999) ∧
    (∀ (api : Nat → Option PageResponse) (pages : Nat → List GhRepo),
      (∀ i, 1 ≤ i → i ≤ 999 →
        process_page (api i) = .items (pages i) ∧ pages i ≠ []) →
      fetch_repos api = (List.range' 1 999, .ok (pageConcat pages 1 999))) := by
  constructor
  · intro api
    have hshow : fetch_repos api = fetch_repos_loop api 999 1 [] := rfl
    rw [hshow]
    exact fetch_repos_loop_length api 999 1 []
  · intro api pages h
    have hshow : fetch_repos api = fetch_repos_loop api 999 1 [] := rfl
    have h2 := fetch_repos_loop_all_full api pages 999 1 []
      (fun i h1 h2 => h i h1 (by omega))
    have hnil := List.nil_append (pageConcat pages 1 999)
    rw [hshow, h2, hnil]

theorem fetch_repos_page_ceiling_witness :
    (fetch_repos api999).1.length ≤ 999 ∧
    fetch_repos api999 =
      (List.range' 1 999, .ok (pageConcat (fun _ => [repoA]) 1 999)) := by
  refine ⟨fetch_repos_page_ceiling.1 api999, ?_⟩
  apply fetch_repos_page_ceiling.2 api999 (fun _ => [repoA])
  intro i h1 h2
  refine ⟨?_, by simp⟩
  show process_page (some ⟨200, some (if i ≤ 999 then [repoA] else [])⟩) = _
  rw [if_pos h2]; decide

/-- C6.  A failing page aborts listing with a classified error and no
partial repository list: if pages 1 through p-1 are full successes and the
request for page p fails, the lister has requested exactly pages 1 through
p and returns only the classified error.  The per-page classification
follows the source order: 404 yields OrganisationNotFound, 403 yields
Forbidden, any 5xx yields ServerError, any other non-2xx status, a
transport failure, or a body-decode failure yields UnknownError. -/
theorem fetch_repos_error_classification :
    (∀ (api : Nat → Option PageResponse) (pages : Nat → List GhRepo)
        (p : Nat) (err : FetchReposError), 1 ≤ p → p ≤ 999 →
      (∀ i, 1 ≤ i → i < p →
        process_page (api i) = .items (pages i) ∧ pages i ≠ []) →
      process_page (api p) = .fail err →
      fetch_repos api = (List.range' 1 p, .error err)) ∧
    (∀ r : PageResponse, r.status = 404 →
      process_page (some r) = .fail .OrganisationNotFound) ∧
    (∀ r : PageResponse, r.status = 403 →
      process_page (some r) = .fail .Forbidden) ∧
    (∀ r : PageResponse, 500 ≤ r.status → r.status ≤ 599 →
      process_page (some r) = .fail .ServerError) ∧
    (process_page none = .fail .UnknownError) ∧
    (∀ r : PageResponse, ¬(200 ≤ r.status ∧ r.status ≤ 299) →
      r.status ≠ 404 → r.status ≠ 403 → ¬(500 ≤ r.status ∧ r.status ≤ 599) →
      process_page (some r) = .fail .UnknownError) ∧
    (∀ s, 200 ≤ s → s ≤ 299 →
      process_page (some ⟨s, none⟩) = .fail .UnknownError) := by
  refine ⟨?_, ?_, ?_, ?_, rfl, ?_, ?_⟩
  · intro api pages p err hp1 hp2 hfull herr
    obtain ⟨k, rfl⟩ : ∃ k, p = k + 1 := ⟨p - 1, by omega⟩
    have hstep := fetch_repos_loop_full api pages k 1 999 [] (by omega)
      (fun i h1 h2 => hfull i h1 (by omega))
    have hfuel : 999 - k = (998 - k) + 1 := by omega
    have hpage : (1 : Nat) + k = k + 1 := by omega
    have hshow : fetch_repos api = fetch_repos_loop api 999 1 [] := rfl
    rw [hshow, hstep, hfuel, hpage, fetch_repos_loop, herr]
    have hsnoc : List.range' 1 k ++ [k + 1] = List.range' 1 (k + 1) := by
      have h0 := List.range'_1_concat 1 k
      rw [Nat.add_comm 1 k] at h0
      exact h0.symm
    simp only [hsnoc]
  · intro r hr
    obtain ⟨s, b⟩ := r
    subst hr
    cases b <;> rfl
  · intro r hr
    obtain ⟨s, b⟩ := r
    subst hr
    cases b <;> rfl
  · intro r h1 h2
    have h404 : (r.status == 404) = false := by simp; omega
    have h403 : (r.status == 403) = false := by simp; omega
    have hsrv : is_server_error r.status = true := by
      simp [is_server_error]; omega
    simp [process_page, h404, h403, hsrv]
  · intro r hsucc h404 h403 hsrv
    have h404b : (r.status == 404) = false := by simpa using h404
    have h403b : (r.status == 403) = false := by simpa using h403
    have hsrvb : is_server_error r.status = false := by
      simp [is_server_error]; omega
    have hsuccb : is_success r.status = false := by
      simp [is_success]; omega
    simp [process_page, h404b, h403b, hsrvb, hsuccb]
  · intro s h1 h2
    have h404 : (s == 404) = false := by simp; omega
    have h403 : (s == 403) = false := by simp; omega
    have hsrv : is_server_error s = false := by simp [is_server_error]; omega
    have hsucc : is_success s = true := by simp [is_success]; omega
    simp [process_page, h404, h403, hsrv, hsucc]

/-- API behaviour used as the C6 witness: page 1 is a full success, page 2
answers HTTP 404, so listing must abort after requesting pages 1 and 2
with OrganisationNotFound and no partial list. -/
def api404 : Nat → Option PageResponse :=
  fun p => if p = 1 then some ⟨200, some [repoA]⟩ else some ⟨404, some []⟩

theorem fetch_repos_error_classification_witness :
    fetch_repos api404 = ([1, 2], .error .OrganisationNotFound) := by
  have h := fetch_repos_error_classification.1 api404 (fun _ => [repoA]) 2
    .OrganisationNotFound (by omega) (by omega)
    (fun i h1 h2 => by
      have hi : i = 1 := by omega
      subst hi
      exact ⟨by decide, by decide⟩)
    (by decide)
  simpa [List.range'] using h

/-- C7.  The identity resolver consumes its single HTTP exchange with no
retry and classifies the outcome exactly as the source does: 403 yields
Forbidden, any 5xx yields ServerError, a transport failure, any other
non-2xx status, or a failure to decode the login field yields
UnknownError, and a decodable 2xx yields the authenticated login. -/
theorem fetch_user_classification :
    (∀ r : UserResponse, r.status = 403 →
      fetch_user (some r) = .error .Forbidden) ∧
    (∀ r : UserResponse, 500 ≤ r.status → r.status ≤ 599 →
      fetch_user (some r) = .error .ServerError) ∧
    (fetch_user none = .error .UnknownError) ∧
    (∀ r : UserResponse, ¬(200 ≤ r.status ∧ r.status ≤ 299) →
      r.status ≠ 403 → ¬(500 ≤ r.status ∧ r.status ≤ 599) →
      fetch_user (some r) = .error .UnknownError) ∧
    (∀ s, 200 ≤ s → s ≤ 299 →
      fetch_user (some ⟨s, none⟩) = .error .UnknownError) ∧
    (∀ s l, 200 ≤ s → s ≤ 299 →
      fetch_user (some ⟨s, some l⟩) = .ok ⟨l⟩) := by
  refine ⟨?_, ?_, rfl, ?_, ?_, ?_⟩
  · intro r hr
    obtain ⟨s, b⟩ := r
    subst hr
    cases b <;> rfl
  · intro r h1 h2
    have h403 : (r.status == 403) = false := by simp; omega
    have hsrv : is_server_error r.status = true := by
      simp [is_server_error]; omega
    simp [fetch_user, h403, hsrv]
  · intro r hsucc h403 hsrv
    have h403b : (r.status == 403) = false := by simpa using h403
    have hsrvb : is_server_error r.status = false := by
      simp [is_server_error]; omega
    have hsuccb : is_success r.status = false := by
      simp [is_success]; omega
    simp [fetch_user, h403b, hsrvb, hsuccb]
  · intro s h1 h2
    have h403 : (s == 403) = false := by simp; omega
    have hsrv : is_server_error s = false := by simp [is_server_error]; omega
    have hsucc : is_success s = true := by simp [is_success]; omega
    simp [fetch_user, h403, hsrv, hsucc]
  · intro s l h1 h2
    have h403 : (s == 403) = false := by simp; omega
    have hsrv : is_server_error s = false := by simp [is_server_error]; omega
    have hsucc : is_success s = true := by simp [is_success]; omega
    simp [fetch_user, h403, hsrv, hsucc]

theorem fetch_user_classification_witness :
    fetch_user (some ⟨403, some "alice"⟩) = .error .Forbidden ∧
    fetch_user (some ⟨503, some "alice"⟩) = .error .ServerError ∧
    fetch_user (some ⟨404, some "alice"⟩) = .error .UnknownError ∧
    fetch_user (some ⟨200, none⟩) = .error .UnknownError ∧
    fetch_user (some ⟨200, some "alice"⟩) = .ok ⟨"alice"⟩ :=
  ⟨fetch_user_classification.1 ⟨403, some "alice"⟩ rfl,
   fetch_user_classification.2.1 ⟨503, some "alice"⟩ (by decide) (by decide),
   fetch_user_classification.2.2.2.1 ⟨404, some "alice"⟩ (by decide)
     (by decide) (by decide),
   fetch_user_classification.2.2.2.2.1 200 (by decide) (by decide),
   fetch_user_classification.2.2.2.2.2 200 "alice" (by decide) (by decide)⟩

/-- Fetch options built by every backup unit (main.rs lines 227-230):
tag auto-following for all tags and updating of FETCH_HEAD. -/
structure FetchOpts where
  downloadTagsAll : Bool
  updateFetchhead : Bool
deriving DecidableEq

/-- The concrete FetchOptions value of the source: download_tags set to
AutotagOption::All and update_fetchhead set to true. -/
def unitFetchOpts : FetchOpts := { downloadTagsAll := true, updateFetchhead := true }

/-- Environment of git operations available to a backup unit, keyed by
filesystem path (a path is its list of components).  Each operation
records the fallible result the libgit2 call would produce; remote names
are optional because libgit2 yields an Option per name (main.rs line 237
unwraps it). -/
structure GitEnv where
  pathExists : List String → Bool
  openRepo : List String → Except String Unit
  remotes : List String → Except String (List (Option String))
  find_remote : List String → String → Except String Unit
  download : List String → String → Except String Unit
  clone : String → List String → Except String Unit

/-- Observable events of a run: the HTTP calls, the backup-directory
creation, and the git operations of each backup unit, plus the two
abnormal unit outcomes (a logged clone failure, main.rs lines 245-248,
and a panic from an unwrap in the update path, lines 233-237). -/
inductive Event where
  | httpUser
  | httpRepoPage (page : Nat)
  | createDir
  | unitStart (full_name clone_url : String)
  | gitOpen (path : List String)
  | gitRemotes (path : List String)
  | gitDownload (path : List String) (remote : String) (fo : FetchOpts)
  | gitClone (url : String) (dest : List String) (fo : FetchOpts)
      (checkoutDisabled : Bool)
  | cloneFailed (dest : List String)
  | unitPanic (path : List String)
deriving DecidableEq

/-- Embedding of the remote loop of the update path (main.rs lines
235-238): every remote name is unwrapped, looked up and downloaded with
the unit's fetch options; the error of any of these operations is
unwrapped, which aborts the unit with a panic. -/
def download_all (g : GitEnv) (dir : List String) :
    List (Option String) → List Event
  | [] => []
  | none :: _ => [.unitPanic dir]
  | some nm :: rest =>
    match g.find_remote dir nm with
    | .error _ => [.unitPanic dir]
    | .ok _ =>
      match g.download dir nm with
      | .error _ => [.gitDownload dir nm unitFetchOpts, .unitPanic dir]
      | .ok _ => .gitDownload dir nm unitFetchOpts :: download_all g dir rest

/-- Embedding of one backup unit (the async block of main.rs lines
218-251).  The unit computes the target path backup_dir/name, and decides
solely on its existence: if it exists, open the local repository and
download from every registered remote; otherwise clone from clone_url
with working-tree checkout disabled (CheckoutBuilder::dry_run, lines
221-222), tag auto-following and FETCH_HEAD updating enabled.  A clone
error is logged (the computed failure exit code is discarded); errors of
the update path are unwrapped and so panic the unit. -/
def backup_unit (g : GitEnv) (backupDir : List String) (repo : GhRepo) :
    List Event :=
  Event.unitStart repo.full_name repo.clone_url ::
    (if g.pathExists (backupDir ++ [repo.name]) then
      Event.gitOpen (backupDir ++ [repo.name]) ::
        (match g.openRepo (backupDir ++ [repo.name]) with
        | .error _ => [.unitPanic (backupDir ++ [repo.name])]
        | .ok _ =>
          Event.gitRemotes (backupDir ++ [repo.name]) ::
            (match g.remotes (backupDir ++ [repo.name]) with
            | .error _ => [.unitPanic (backupDir ++ [repo.name])]
            | .ok names => download_all g (backupDir ++ [repo.name]) names))
    else
      Event.gitClone repo.clone_url (backupDir ++ [repo.name]) unitFetchOpts true ::
        (match g.clone repo.clone_url (backupDir ++ [repo.name]) with
        | .ok _ => []
        | .error _ => [.cloneFailed (backupDir ++ [repo.name])]))

/-- Events of all backup units, one unit per listed repository, in
listing order.  The tasks actually run concurrently; the trace fixes one
sequentialisation, which is faithful for every property stated here
(presence or absence of events, and the exit code, are
interleaving-independent). -/
def units_events (g : GitEnv) (backupDir : List String) :
    List GhRepo → List Event
  | [] => []
  | r :: rs => backup_unit g backupDir r ++ units_events g backupDir rs

/-- Inputs of one whole run of main: the parsed CLI values (the dry
switch, the optional backup directory and the organisation name, main.rs
lines 14-28 and 174-177), the token-variable lookup (lines 183-186, some
when GH_TOKEN or GITHUB_TOKEN is set), the outcome of the identity
exchange, the outcome of every listing-page exchange, whether
fs::create_dir_all succeeds (line 206), and the git environment. -/
structure MainEnv where
  dry : Bool
  backup_dir : Option (List String)
  organisation : String
  gh_token : Option String
  userResp : Option UserResponse
  repoApi : Nat → Option PageResponse
  createDirOk : Bool
  git : GitEnv

/-- The backup directory actually used: the CLI value when given, else
the default organisation_backup (main.rs line 177). -/
def effective_backup_dir (env : MainEnv) : List String :=
  match env.backup_dir with
  | some d => d
  | none => [env.organisation ++ "_backup"]

/-- Numeric exit codes: ExitCode::SUCCESS. -/
def ExitSuccess : Nat := 0

/-- Numeric exit codes: ExitCode::FAILURE. -/
def ExitFailure : Nat := 1

/-- Embedding of main (main.rs lines 172-259) as the event trace and exit
code of a run: abort with FAILURE when the token is absent, after the
identity exchange when it fails, after the listing when it fails, and
after attempting directory creation when that fails; otherwise run every
backup unit and return ExitCode::SUCCESS (line 259) regardless of the
units' outcomes, the per-unit failure exit code computed at line 247
being discarded. -/
def main_run (env : MainEnv) : List Event × Nat :=
  match env.gh_token with
  | none => ([], ExitFailure)
  | some _ =>
    match fetch_user env.userResp with
    | .error _ => ([.httpUser], ExitFailure)
    | .ok _ =>
      match (fetch_repos env.repoApi).2 with
      | .error _ =>
        (Event.httpUser :: (fetch_repos env.repoApi).1.map Event.httpRepoPage,
          ExitFailure)
      | .ok repos =>
        if env.createDirOk then
          (Event.httpUser :: (fetch_repos env.repoApi).1.map Event.httpRepoPage
              ++ [Event.createDir]
              ++ units_events env.git (effective_backup_dir env) repos,
            ExitSuccess)
        else
          (Event.httpUser :: (fetch_repos env.repoApi).1.map Event.httpRepoPage
              ++ [Event.createDir],
            ExitFailure)

/-- Every event of the remote-download loop is either a download via the
unit's fetch options or the panic of an unwrap. -/
theorem mem_download_all (g : GitEnv) (dir : List String) :
    ∀ (names : List (Option String)) (e : Event), e ∈ download_all g dir names →
      (∃ nm, e = Event.gitDownload dir nm unitFetchOpts) ∨
      e = Event.unitPanic dir := by
  intro names
  induction names with
  | nil => intro e h; simp [download_all] at h
  | cons hd tl ih =>
    intro e h
    cases hd with
    | none => simp [download_all] at h; exact Or.inr h
    | some nm =>
      cases hfind : g.find_remote dir nm with
      | error err =>
        simp [download_all, hfind] at h
        exact Or.inr h
      | ok u =>
        cases hdl : g.download dir nm with
        | error err =>
          simp [download_all, hfind, hdl] at h
          rcases h with h | h
          · exact Or.inl ⟨nm, h⟩
          · exact Or.inr h
        | ok u2 =>
          simp only [download_all, hfind, hdl, List.mem_cons] at h
          rcases h with h | h
          · exact Or.inl ⟨nm, h⟩
          · exact ih e h

/-- When every remote resolves and downloads successfully, the loop
downloads from every registered remote, in order, with the unit's fetch
options. -/
theorem download_all_ok (g : GitEnv) (dir : List String) :
    ∀ names : List String,
      (∀ nm ∈ names, g.find_remote dir nm = .ok () ∧
        g.download dir nm = .ok ()) →
      download_all g dir (names.map some) =
        names.map (fun nm => Event.gitDownload dir nm unitFetchOpts) := by
  intro names
  induction names with
  | nil => intro _; rfl
  | cons nm tl ih =>
    intro h
    have hh := h nm (by simp)
    have htl := ih (fun x hx => h x (by simp [hx]))
    simp only [List.map_cons, download_all, hh.1, hh.2, htl]

/-- Any failing operation in the remote loop, a remote name that does not
resolve to a string included, makes the loop panic. -/
theorem download_all_panic (g : GitEnv) (dir : List String) :
    ∀ names : List (Option String),
      (none ∈ names ∨ ∃ nm, some nm ∈ names ∧
        ((∃ e, g.find_remote dir nm = .error e) ∨
         (∃ e, g.download dir nm = .error e))) →
      Event.unitPanic dir ∈ download_all g dir names := by
  intro names
  induction names with
  | nil =>
    intro h
    rcases h with h | ⟨nm, h, _⟩ <;> simp at h
  | cons hd tl ih =>
    intro h
    cases hd with
    | none => simp [download_all]
    | some nm0 =>
      cases hfind : g.find_remote dir nm0 with
      | error e => simp [download_all, hfind]
      | ok u =>
        cases hdl : g.download dir nm0 with
        | error e => simp [download_all, hfind, hdl]
        | ok u2 =>
          simp only [download_all, hfind, hdl, List.mem_cons]
          refine Or.inr (ih ?_)
          rcases h with h | ⟨nm, hmem, hbad⟩
          · simp at h
            exact Or.inl h
          · rcases List.mem_cons.mp hmem with heq | hmem
            · obtain rfl : nm = nm0 := by simpa using heq
              rcases hbad with ⟨e, he⟩ | ⟨e, he⟩
              · rw [hfind] at he; cases he
              · rw [hdl] at he; cases he
            · exact Or.inr ⟨nm, hmem, hbad⟩

/-- When the target path exists, every event of the unit is the start
message, the open, the remote listing, a download with the unit's fetch
options, or an unwrap panic. -/
theorem mem_backup_unit_of_exists (g : GitEnv) (bd : List String) (r : GhRepo)
    (hex : g.pathExists (bd ++ [r.name]) = true) :
    ∀ e ∈ backup_unit g bd r,
      e = Event.unitStart r.full_name r.clone_url ∨
      e = Event.gitOpen (bd ++ [r.name]) ∨
      e = Event.gitRemotes (bd ++ [r.name]) ∨
      (∃ nm, e = Event.gitDownload (bd ++ [r.name]) nm unitFetchOpts) ∨
      e = Event.unitPanic (bd ++ [r.name]) := by
  intro e he
  simp only [backup_unit, hex, if_true, List.mem_cons] at he
  rcases he with he | he
  · exact Or.inl he
  rcases he with he | he
  · exact Or.inr (Or.inl he)
  cases hopen : g.openRepo (bd ++ [r.name]) with
  | error err =>
    simp only [hopen] at he
    simp at he
    exact Or.inr (Or.inr (Or.inr (Or.inr he)))
  | ok u =>
    simp only [hopen, List.mem_cons] at he
    rcases he with he | he
    · exact Or.inr (Or.inr (Or.inl he))
    cases hrem : g.remotes (bd ++ [r.name]) with
    | error err =>
      simp only [hrem] at he
      simp at he
      exact Or.inr (Or.inr (Or.inr (Or.inr he)))
    | ok names =>
      simp only [hrem] at he
      exact Or.inr (Or.inr (Or.inr (mem_download_all g _ names e he)))

/-- C3.  The unit decides clone-versus-update solely by the existence of
target_path = backup_dir/name: when the path exists the unit opens the
local repository and, when the git operations succeed, downloads from
every registered remote in order, and never clones; when the path does
not exist the unit clones from clone_url with working-tree checkout
disabled, all tags auto-followed and FETCH_HEAD updated, and performs
no open or download. -/
theorem backup_unit_decision (g : GitEnv) (bd : List String) (r : GhRepo) :
    (g.pathExists (bd ++ [r.name]) = true →
      (∀ url dest fo cd, Event.gitClone url dest fo cd ∉ backup_unit g bd r) ∧
      Event.gitOpen (bd ++ [r.name]) ∈ backup_unit g bd r ∧
      (∀ names : List String, g.openRepo (bd ++ [r.name]) = .ok () →
        g.remotes (bd ++ [r.name]) = .ok (names.map some) →
        (∀ nm ∈ names, g.find_remote (bd ++ [r.name]) nm = .ok () ∧
          g.download (bd ++ [r.name]) nm = .ok ()) →
        backup_unit g bd r =
          [Event.unitStart r.full_name r.clone_url,
            Event.gitOpen (bd ++ [r.name]),
            Event.gitRemotes (bd ++ [r.name])] ++
            names.map (fun nm =>
              Event.gitDownload (bd ++ [r.name]) nm unitFetchOpts))) ∧
    (g.pathExists (bd ++ [r.name]) = false →
      (g.clone r.clone_url (bd ++ [r.name]) = .ok () →
        backup_unit g bd r =
          [Event.unitStart r.full_name r.clone_url,
            Event.gitClone r.clone_url (bd ++ [r.name])
              { downloadTagsAll := true, updateFetchhead := true } true]) ∧
      (∀ e, g.clone r.clone_url (bd ++ [r.name]) = .error e →
        backup_unit g bd r =
          [Event.unitStart r.full_name r.clone_url,
            Event.gitClone r.clone_url (bd ++ [r.name])
              { downloadTagsAll := true, updateFetchhead := true } true,
            Event.cloneFailed (bd ++ [r.name])])) := by
  constructor
  · intro hex
    refine ⟨?_, ?_, ?_⟩
    · intro url dest fo cd hmem
      rcases mem_backup_unit_of_exists g bd r hex _ hmem with
        h | h | h | ⟨nm, h⟩ | h <;> simp at h
    · simp [backup_unit, hex]
    · intro names hopen hrem hall
      simp only [backup_unit, hex, if_true, hopen, hrem]
      rw [download_all_ok g _ names hall]
      simp
  · intro hex
    constructor
    · intro hclone
      simp [backup_unit, hex, hclone, unitFetchOpts]
    · intro e hclone
      simp [backup_unit, hex, hclone, unitFetchOpts]

/-- Repository and git environment of the spec scenario: backup_dir/foo
already exists as a valid local repository with one remote origin. -/
def repoFoo : GhRepo := ⟨"foo", "acme/foo", "https://github.com/acme/foo.git"⟩

/-- Git environment in which exactly the path bd/foo exists, the open and
remote operations succeed and the single remote is origin. -/
def gFoo : GitEnv :=
  { pathExists := fun d => d == ["bd", "foo"]
    openRepo := fun _ => .ok ()
    remotes := fun _ => .ok [some "origin"]
    find_remote := fun _ _ => .ok ()
    download := fun _ _ => .ok ()
    clone := fun _ _ => .ok () }

theorem backup_unit_decision_witness :
    (∀ url dest fo cd,
      Event.gitClone url dest fo cd ∉ backup_unit gFoo ["bd"] repoFoo) ∧
    backup_unit gFoo ["bd"] repoFoo =
      [Event.unitStart "acme/foo" "https://github.com/acme/foo.git",
        Event.gitOpen ["bd", "foo"], Event.gitRemotes ["bd", "foo"],
        Event.gitDownload ["bd", "foo"] "origin" unitFetchOpts] := by
  have h := backup_unit_decision gFoo ["bd"] repoFoo
  have hex : gFoo.pathExists (["bd"] ++ [repoFoo.name]) = true := by decide
  refine ⟨(h.1 hex).1, ?_⟩
  have h3 := (h.1 hex).2.2 ["origin"] rfl rfl
    (by intro nm _; exact ⟨rfl, rfl⟩)
  simpa [repoFoo] using h3

/-- C10.  In the incremental-update path every fallible git operation is
unwrapped: when the target path exists, the unit never produces the
logged, classified clone failure, and a failure of the open, of the
remote listing, of a remote name resolution, of a remote lookup or of a
download panics the unit. -/
theorem update_path_unwraps (g : GitEnv) (bd : List String) (r : GhRepo)
    (hex : g.pathExists (bd ++ [r.name]) = true) :
    (∀ d, Event.cloneFailed d ∉ backup_unit g bd r) ∧
    ((∃ e, g.openRepo (bd ++ [r.name]) = .error e) →
      Event.unitPanic (bd ++ [r.name]) ∈ backup_unit g bd r) ∧
    (∀ e, g.openRepo (bd ++ [r.name]) = .ok () →
      g.remotes (bd ++ [r.name]) = .error e →
      Event.unitPanic (bd ++ [r.name]) ∈ backup_unit g bd r) ∧
    (∀ names, g.openRepo (bd ++ [r.name]) = .ok () →
      g.remotes (bd ++ [r.name]) = .ok names →
      (none ∈ names ∨ ∃ nm, some nm ∈ names ∧
        ((∃ e, g.find_remote (bd ++ [r.name]) nm = .error e) ∨
         (∃ e, g.download (bd ++ [r.name]) nm = .error e))) →
      Event.unitPanic (bd ++ [r.name]) ∈ backup_unit g bd r) := by
  refine ⟨?_, ?_, ?_, ?_⟩
  · intro d hmem
    rcases mem_backup_unit_of_exists g bd r hex _ hmem with
      h | h | h | ⟨nm, h⟩ | h <;> simp at h
  · rintro ⟨e, hopen⟩
    simp [backup_unit, hex, hopen]
  · intro e hopen hrem
    simp [backup_unit, hex, hopen, hrem]
  · intro names hopen hrem hbad
    simp only [backup_unit, hex, if_true, hopen, hrem, List.mem_cons]
    exact Or.inr (Or.inr (Or.inr (download_all_panic g _ names hbad)))

/-- Git environment of the C10 witness: the target path exists but opening
it as a repository fails (for example it is not a valid git repository). -/
def gBadOpen : GitEnv :=
  { pathExists := fun _ => true
    openRepo := fun _ => .error "could not find repository"
    remotes := fun _ => .ok []
    find_remote := fun _ _ => .ok ()
    download := fun _ _ => .ok ()
    clone := fun _ _ => .ok () }

theorem update_path_unwraps_witness :
    (∀ d, Event.cloneFailed d ∉ backup_unit gBadOpen ["bd"] repoA) ∧
    Event.unitPanic ["bd", "a"] ∈ backup_unit gBadOpen ["bd"] repoA := by
  have h := update_path_unwraps gBadOpen ["bd"] repoA rfl
  exact ⟨h.1, h.2.1 ⟨"could not find repository", rfl⟩⟩

/-- Git environment in which no target path exists and every clone fails,
as when the network is unreachable. -/
def gCloneFail : GitEnv :=
  { pathExists := fun _ => false
    openRepo := fun _ => .ok ()
    remotes := fun _ => .ok []
    find_remote := fun _ _ => .ok ()
    download := fun _ _ => .ok ()
    clone := fun _ _ => .error "could not resolve host" }

/-- Run input for the exit-code counterexample: the token is set, identity
and listing succeed with exactly one repository a, directory creation
succeeds, and the fresh clone of a fails. -/
def envCloneFail : MainEnv :=
  { dry := false
    backup_dir := none
    organisation := "acme"
    gh_token := some "token"
    userResp := some ⟨200, some "alice"⟩
    repoApi := fun p => some ⟨200, some (if p == 1 then [repoA] else [])⟩
    createDirOk := true
    git := gCloneFail }

/-- C1 evaluated at the failing input.  Identity resolution, listing and
directory creation succeed, the only backup unit fails its clone and logs
the failure, yet main still returns ExitCode::SUCCESS (main.rs line 259):
the per-unit failure exit code computed at line 247 is discarded, so the
process exit status does not reflect the unit failure. -/
theorem main_exit_zero_despite_unit_failure :
    (main_run envCloneFail).2 = ExitSuccess ∧
    Event.cloneFailed ["acme_backup", "a"] ∈ (main_run envCloneFail).1 := by
  constructor
  · decide
  · decide

/-- C8.  No backup unit is dispatched before identity resolution and
listing have both succeeded: an absent token makes the run fail with no
HTTP exchange at all, an identity error makes it fail after the single
identity exchange with no listing and no backup work, a listing error
makes it fail with no backup work, and any dispatched unit start in the
trace implies the token was present, identity and listing succeeded, and
the backup directory was created. -/
theorem main_gates_backup (env : MainEnv) :
    (env.gh_token = none → main_run env = ([], ExitFailure)) ∧
    (∀ t e, env.gh_token = some t → fetch_user env.userResp = .error e →
      main_run env = ([Event.httpUser], ExitFailure)) ∧
    (∀ t u pages e, env.gh_token = some t → fetch_user env.userResp = .ok u →
      fetch_repos env.repoApi = (pages, .error e) →
      main_run env = (Event.httpUser :: pages.map Event.httpRepoPage,
        ExitFailure)) ∧
    (∀ f c, Event.unitStart f c ∈ (main_run env).1 →
      (∃ t, env.gh_token = some t) ∧
      (∃ u, fetch_user env.userResp = .ok u) ∧
      (∃ repos, (fetch_repos env.repoApi).2 = .ok repos) ∧
      env.createDirOk = true) := by
  refine ⟨?_, ?_, ?_, ?_⟩
  · intro h
    simp [main_run, h]
  · intro t e ht he
    simp [main_run, ht, he]
  · intro t u pages e ht hu hr
    simp [main_run, ht, hu, hr]
  · intro f c hmem
    cases ht : env.gh_token with
    | none => simp [main_run, ht] at hmem
    | some t =>
      cases hu : fetch_user env.userResp with
      | error e => simp [main_run, ht, hu] at hmem
      | ok u =>
        cases hr : (fetch_repos env.repoApi).2 with
        | error e => simp [main_run, ht, hu, hr] at hmem
        | ok repos =>
          cases hc : env.createDirOk with
          | false => simp [main_run, ht, hu, hr, hc] at hmem
          | true => exact ⟨⟨t, rfl⟩, ⟨u, rfl⟩, ⟨repos, rfl⟩, rfl⟩

/-- Run input with no token environment variable set. -/
def envNoToken : MainEnv :=
  { dry := false
    backup_dir := none
    organisation := "acme"
    gh_token := none
    userResp := none
    repoApi := fun _ => none
    createDirOk := true
    git := gCloneFail }

/-- Run input whose identity exchange answers HTTP 403. -/
def env403 : MainEnv :=
  { envNoToken with
    gh_token := some "token"
    userResp := some ⟨403, some "alice"⟩ }

/-- Run input whose first listing page answers HTTP 500. -/
def envList500 : MainEnv :=
  { envNoToken with
    gh_token := some "token"
    userResp := some ⟨200, some "alice"⟩
    repoApi := fun _ => some ⟨500, some []⟩ }

theorem main_gates_backup_witness :
    main_run envNoToken = ([], ExitFailure) ∧
    main_run env403 = ([Event.httpUser], ExitFailure) ∧
    main_run envList500 =
      ([Event.httpUser, Event.httpRepoPage 1], ExitFailure) ∧
    ((∃ t, envCloneFail.gh_token = some t) ∧
      (∃ u, fetch_user envCloneFail.userResp = .ok u) ∧
      (∃ repos, (fetch_repos envCloneFail.repoApi).2 = .ok repos) ∧
      envCloneFail.createDirOk = true) := by
  refine ⟨?_, ?_, ?_, ?_⟩
  · exact (main_gates_backup envNoToken).1 rfl
  · exact (main_gates_backup env403).2.1 "token" .Forbidden rfl rfl
  · have h := (main_gates_backup envList500).2.2.1 "token" ⟨"alice"⟩ [1]
      .ServerError rfl rfl rfl
    simpa using h
  · exact (main_gates_backup envCloneFail).2.2.2 "acme/a"
      "https://github.com/acme/a.git" (by decide)

/-- Git environment of the dry-run counterexample: no target path exists
and the clone succeeds, so running a unit persists a fresh clone. -/
def gCloneOk : GitEnv :=
  { gCloneFail with clone := fun _ _ => .ok () }

/-- Run input identical to the exit-code one except that the clone
succeeds and the dry switch is set. -/
def envPersist : MainEnv :=
  { envCloneFail with git := gCloneOk, dry := true }

/-- C9 refuted on the code.  The dry switch is parsed (main.rs lines
17-19) but never read by main: every run behaves identically for any two
values of the switch, and a run with the switch set still performs the
persisting clone (the CheckoutBuilder dry_run of lines 221-222 is applied
unconditionally and only disables working-tree checkout). -/
theorem dry_flag_unread :
    (∀ (env : MainEnv) (b1 b2 : Bool),
      main_run { env with dry := b1 } = main_run { env with dry := b2 }) ∧
    Event.gitClone "https://github.com/acme/a.git" ["acme_backup", "a"]
      unitFetchOpts true ∈ (main_run envPersist).1 := by
  constructor
  · intro env b1 b2
    cases env
    rfl
  · decide

/-- Phase of one spawned backup task. -/
inductive TaskPhase where
  | running
  | finished
deriving DecidableEq

/-- State of the spawned backup tasks, one per repository in spawn order. -/
structure PoolState where
  tasks : List TaskPhase

/-- Width passed to buffer_unordered (main.rs line 256). -/
def POOL_WIDTH : Nat := 10

/-- State reached right after the collect of main.rs lines 211-253 while
no transfer has yet finished.  tokio::task::spawn (line 217) schedules
each task to run immediately on the multi-threaded runtime, independently
of whether its JoinHandle is ever awaited, and the collect forces all n
spawns before buffer_unordered polls a single handle; buffer_unordered 10
(line 256) bounds only the number of JoinHandles awaited concurrently,
not the number of spawned tasks running.  So at this instant all n tasks
are performing their transfer step. -/
def spawnAll (n : Nat) : PoolState := ⟨List.replicate n .running⟩

/-- Number of tasks in the running phase. -/
def countRunning : List TaskPhase → Nat
  | [] => 0
  | .running :: ts => countRunning ts + 1
  | .finished :: ts => countRunning ts

/-- Number of tasks actively performing their transfer step. -/
def activeTransfers (s : PoolState) : Nat := countRunning s.tasks

/-- C2 refuted on the code.  Submission is eager and unbounded: right
after submission every spawned task is running its transfer step, so with
11 repositories 11 units transfer concurrently, exceeding the width 10
that buffer_unordered imposes only on the awaiting of join handles. -/
theorem eager_spawn_exceeds_pool_width :
    (∀ n, activeTransfers (spawnAll n) = n) ∧
    POOL_WIDTH < activeTransfers (spawnAll 11) := by
  have hall : ∀ n, activeTransfers (spawnAll n) = n := by
    intro n
    induction n with
    | zero => rfl
    | succ n ih =>
      simp only [spawnAll, activeTransfers, List.replicate, countRunning] at *
      omega
  refine ⟨hall, ?_⟩
  rw [hall]
  decide
